import Mathlib

/-!
Shallow embedding of the `evstate` finite-state-machine engine
(`src/index.js`, class `FSM`) and proofs of its specified properties.

Modelling conventions:
- A JS object used as a map is an insertion-ordered association list; a
  property read returns the first binding (`jsGet`), a property write
  overwrites the first binding in place or appends (`jsSet`), and
  `Object.keys` is the list of first components.
- A transition-table value of `null` (the absence marker for terminal
  states) is `Option.none`, so the table maps names to
  `Option (List String)`.
- JS handler functions are opaque values compared by reference; they are
  modelled as `Nat` identifiers.  What a handler does when invoked is
  supplied externally as a behaviour map `hb : Nat → α → Option String`
  (given the dispatch arguments, the handler either returns normally,
  `none`, or throws an error `some e`).  Invocations are recorded in a
  trace of `Event`s.
- A JS `throw` is the `Except.error` branch; a method that can throw
  returns `Except String _`.  Reading a property such as `indexOf` off
  `undefined` or `null` throws a `TypeError`; the two messages below
  stand for those exceptions.
-/

deriving instance DecidableEq for Except

namespace Evstate

/-- The reserved wildcard key `FSM.ANY` (the static class field holding
the string `anyStateChange`). -/
def ANY : String := "anyStateChange"

/-- The `TypeError` thrown by `x.indexOf` when `x` is `undefined`. -/
def undefinedIndexOfError : String :=
  "TypeError: cannot read indexOf of undefined"

/-- The `TypeError` thrown by `x.indexOf` when `x` is `null`. -/
def nullIndexOfError : String :=
  "TypeError: cannot read indexOf of null"

/-- JS `Array.prototype.indexOf` on a list of strings: the index of the first
occurrence, or `-1` when absent. -/
def jsIndexOf : List String → String → Int
  | [], _ => -1
  | a :: rest, x =>
    if a = x then 0
    else if jsIndexOf rest x = -1 then -1 else jsIndexOf rest x + 1

/-- JS object property read: the first binding of the key, `none` when the
property is absent (`undefined`). -/
def jsGet {β : Type} : List (String × β) → String → Option β
  | [], _ => none
  | (k, v) :: rest, q => if k = q then some v else jsGet rest q

/-- JS `Object.prototype.hasOwnProperty`. -/
def jsHasOwnProperty {β : Type} (o : List (String × β)) (k : String) : Bool :=
  (jsGet o k).isSome

/-- JS property assignment: overwrite the first binding in place, keeping
key order, or append a fresh binding at the end. -/
def jsSet {β : Type} : List (String × β) → String → β → List (String × β)
  | [], k, v => [(k, v)]
  | (k0, v0) :: rest, k, v =>
    if k0 = k then (k0, v) :: rest else (k0, v0) :: jsSet rest k v

/-- One observable action performed during `emit`: a transition handler
called with the dispatch arguments, or the error handler called with a
message. -/
inductive Event (α : Type) where
  | handlerCall (id : Nat) (args : α)
  | errorCall (id : Nat) (msg : String)
deriving Repr, DecidableEq

/-- The state of an `FSM` instance: the five fields set up by the
constructor. -/
structure FSM where
  allowedTransitions : List (String × Option (List String))
  currentState : String
  errorHandler : Option Nat
  knownStates : List String
  transitions : List (String × List Nat)
deriving Repr, DecidableEq

/-- The constructor `new FSM(transitions, initialState)`. -/
def FSM.make (transitions : List (String × Option (List String)))
    (initialState : String) : FSM :=
  let known := transitions.map Prod.fst
  { allowedTransitions := transitions
    currentState := initialState
    errorHandler := none
    knownStates := known
    transitions := known.foldl (fun acc s => jsSet acc s []) (jsSet [] ANY []) }

/-- Method `isValid(desiredState)`: `this._knownStates.indexOf(desiredState) >= 0`. -/
def FSM.isValid (m : FSM) (s : String) : Bool :=
  jsIndexOf m.knownStates s ≥ 0

/-- Method `canTransitionTo(desiredState)`:
`this._allowedTransitions[this.currentState].indexOf(desiredState) >= 0`.
The property read yields `undefined` when `currentState` is not a table
key and `null` when its table entry is the absence marker; in both cases
the `.indexOf` call throws a `TypeError`. -/
def FSM.canTransitionTo (m : FSM) (s : String) : Except String Bool :=
  match jsGet m.allowedTransitions m.currentState with
  | none => .error undefinedIndexOfError
  | some none => .error nullIndexOfError
  | some (some l) => .ok (jsIndexOf l s ≥ 0)

/-- Method `on(desiredState, handler)`: reject unknown non-wildcard states, else
push the handler onto the state registry entry (creating it if absent)
and return `this`. -/
def FSM.on (m : FSM) (desiredState : String) (h : Nat) : Except String FSM :=
  if desiredState ≠ ANY ∧ m.isValid desiredState = false then
    .error ("Unable to hook up handler to unknown state " ++ desiredState ++ "!")
  else
    let t := if jsHasOwnProperty m.transitions desiredState then m.transitions
             else jsSet m.transitions desiredState []
    let cur := (jsGet t desiredState).getD []
    .ok { m with transitions := jsSet t desiredState (cur ++ [h]) }

/-- Method `off(desiredState, handler)`: reject unknown non-wildcard states, else
rebuild the registry entry keeping every handler that is not reference-equal
to the given one, and return `this`. -/
def FSM.off (m : FSM) (desiredState : String) (h : Nat) : Except String FSM :=
  if desiredState ≠ ANY ∧ m.isValid desiredState = false then
    .error ("Unable to remove handler from unknown state " ++ desiredState ++ "!")
  else
    let t := if jsHasOwnProperty m.transitions desiredState then m.transitions
             else jsSet m.transitions desiredState []
    let cur := (jsGet t desiredState).getD []
    .ok { m with transitions := jsSet t desiredState (cur.filter (fun x => x ≠ h)) }

/-- Method `onError(handler)`: install the error handler and return `this`. -/
def FSM.onError (m : FSM) (h : Nat) : FSM :=
  { m with errorHandler := some h }

/-- Method `handleError(msg)`: with no error handler installed, throw
`Error("No error handlers present: " + msg)`; otherwise invoke the
installed handler with the message. -/
def FSM.handleError {α : Type} (m : FSM) (msg : String) :
    Except String (List (Event α)) :=
  match m.errorHandler with
  | none => .error ("No error handlers present: " ++ msg)
  | some eh => .ok [Event.errorCall eh msg]

/-- Run a list of handlers in order on the given arguments, stopping at the
first one that throws; returns the trace of calls made and the thrown
error, if any. -/
def runHandlers {α : Type} (hb : Nat → α → Option String) (hs : List Nat)
    (args : α) : List (Event α) × Option String :=
  match hs with
  | [] => ([], none)
  | h :: rest =>
    match hb h args with
    | some e => ([Event.handlerCall h args], some e)
    | none =>
      let r := runHandlers hb rest args
      (Event.handlerCall h args :: r.1, r.2)

/-- Method `emit(desiredState, ...args)`: validate the target, validate the
transition, run the wildcard handlers then the state handlers, and only
then update `currentState`.  Returns the machine state after the call, the
trace of handler and error-handler invocations, and the result:
`.ok true` for `return this`, `.ok false` for `return false`, and
`.error e` when the call throws. -/
def FSM.emit {α : Type} (m : FSM) (hb : Nat → α → Option String)
    (desiredState : String) (args : α) :
    FSM × List (Event α) × Except String Bool :=
  if m.isValid desiredState = false then
    match (m.handleError ("Invalid state requested: " ++ desiredState) :
        Except String (List (Event α))) with
    | .error e => (m, [], .error e)
    | .ok ev => (m, ev, .ok false)
  else
    match m.canTransitionTo desiredState with
    | .error e => (m, [], .error e)
    | .ok false =>
      match (m.handleError
          ("Invalid transition from " ++ m.currentState ++ " requested: " ++ desiredState) :
          Except String (List (Event α))) with
      | .error e => (m, [], .error e)
      | .ok ev => (m, ev, .ok false)
    | .ok true =>
      let anyRun := runHandlers hb ((jsGet m.transitions ANY).getD []) args
      match anyRun.2 with
      | some e => (m, anyRun.1, .error e)
      | none =>
        let stRun := runHandlers hb ((jsGet m.transitions desiredState).getD []) args
        match stRun.2 with
        | some e => (m, anyRun.1 ++ stRun.1, .error e)
        | none => ({ m with currentState := desiredState }, anyRun.1 ++ stRun.1, .ok true)

/-! Basic lemmas about the JS primitives. -/

lemma jsIndexOf_neg_or_nonneg (l : List String) (x : String) :
    jsIndexOf l x = -1 ∨ 0 ≤ jsIndexOf l x := by
  induction l with
  | nil => left; rfl
  | cons a rest ih =>
    by_cases h : a = x
    · right; simp [jsIndexOf, h]
    · rcases ih with h1 | h1
      · left; simp [jsIndexOf, h, h1]
      · by_cases h2 : jsIndexOf rest x = -1
        · left; simp [jsIndexOf, h, h2]
        · right; simp only [jsIndexOf, if_neg h, if_neg h2]
          omega

lemma jsIndexOf_nonneg (l : List String) (x : String) :
    0 ≤ jsIndexOf l x ↔ x ∈ l := by
  induction l with
  | nil => simp [jsIndexOf]
  | cons a rest ih =>
    by_cases h : a = x
    · simp [jsIndexOf, h]
    · rcases jsIndexOf_neg_or_nonneg rest x with h1 | h1
      · have hx : x ∉ rest := by
          intro hmem
          rw [← ih] at hmem
          omega
        simp only [jsIndexOf, if_neg h, h1, if_pos rfl]
        constructor
        · intro hle
          exact absurd hle (by decide)
        · intro hmem
          rcases List.mem_cons.mp hmem with he | hr
          · exact absurd he.symm h
          · exact absurd hr hx
      · by_cases h2 : jsIndexOf rest x = -1
        · simp only [jsIndexOf, if_neg h, if_pos h2]
          rw [h2] at h1
          omega
        · simp only [jsIndexOf, if_neg h, if_neg h2]
          have : x ∈ rest := ih.mp h1
          simp [List.mem_cons, this]
          omega

lemma jsGet_jsSet_self {β : Type} (o : List (String × β)) (k : String) (v : β) :
    jsGet (jsSet o k v) k = some v := by
  induction o with
  | nil => simp [jsSet, jsGet]
  | cons p rest ih =>
    by_cases h : p.1 = k
    · simp [jsSet, jsGet, h]
    · simp [jsSet, jsGet, h, ih]

lemma jsGet_jsSet_ne {β : Type} (o : List (String × β)) (k q : String) (v : β)
    (hne : q ≠ k) : jsGet (jsSet o k v) q = jsGet o q := by
  induction o with
  | nil => simp [jsSet, jsGet, Ne.symm hne]
  | cons p rest ih =>
    by_cases h : p.1 = k
    · simp [jsSet, jsGet, h, Ne.symm hne]
    · by_cases h2 : p.1 = q
      · simp [jsSet, jsGet, h, h2, hne]
      · simp [jsSet, jsGet, h, h2, hne, ih]

lemma FSM.isValid_iff_mem (m : FSM) (s : String) :
    m.isValid s = true ↔ s ∈ m.knownStates := by
  simp [FSM.isValid, ge_iff_le, jsIndexOf_nonneg]

lemma runHandlers_of_none {α : Type} (hb : Nat → α → Option String)
    (hs : List Nat) (args : α) (h : ∀ x ∈ hs, hb x args = none) :
    runHandlers hb hs args = (hs.map (fun i => Event.handlerCall i args), none) := by
  induction hs with
  | nil => rfl
  | cons a rest ih =>
    have ha : hb a args = none := h a (List.mem_cons_self a rest)
    have hrest : ∀ x ∈ rest, hb x args = none :=
      fun x hx => h x (List.mem_cons_of_mem a hx)
    simp [runHandlers, ha, ih hrest]

lemma runHandlers_of_throw {α : Type} (hb : Nat → α → Option String)
    (pre : List Nat) (h0 : Nat) (suf : List Nat) (args : α) (e : String)
    (hpre : ∀ x ∈ pre, hb x args = none) (hthrow : hb h0 args = some e) :
    runHandlers hb (pre ++ h0 :: suf) args =
      (pre.map (fun i => Event.handlerCall i args) ++ [Event.handlerCall h0 args],
       some e) := by
  induction pre with
  | nil => simp [runHandlers, hthrow]
  | cons a rest ih =>
    have ha : hb a args = none := hpre a (List.mem_cons_self a rest)
    have hrest : ∀ x ∈ rest, hb x args = none :=
      fun x hx => hpre x (List.mem_cons_of_mem a hx)
    simp [runHandlers, ha, ih hrest]

/-- One call of the public mutating API, for reasoning about arbitrary
operation sequences. -/
inductive Op (α : Type) where
  | register (s : String) (h : Nat)
  | unregister (s : String) (h : Nat)
  | setErrorHandler (h : Nat)
  | dispatch (s : String) (args : α)

/-- The machine state after one API call (a throwing `on`/`off`/`emit`
leaves the machine as it was). -/
def runOp {α : Type} (hb : Nat → α → Option String) (m : FSM) : Op α → FSM
  | .register s h => match m.on s h with | .ok m2 => m2 | .error _ => m
  | .unregister s h => match m.off s h with | .ok m2 => m2 | .error _ => m
  | .setErrorHandler h => m.onError h
  | .dispatch s args => (m.emit hb s args).1

/-- The machine state after a sequence of API calls. -/
def runOps {α : Type} (hb : Nat → α → Option String) (m : FSM)
    (ops : List (Op α)) : FSM :=
  ops.foldl (runOp hb) m

/-! Helper lemmas about the engine operations. -/

lemma FSM.emit_fst {α : Type} (m : FSM) (hb : Nat → α → Option String)
    (s : String) (args : α) :
    (m.emit hb s args).1 = m ∨
    ((m.emit hb s args).1 = { m with currentState := s } ∧ m.isValid s = true) := by
  unfold FSM.emit
  by_cases hv : m.isValid s = false
  · rw [if_pos hv]
    rcases hh : (m.handleError ("Invalid state requested: " ++ s) :
        Except String (List (Event α))) with e | ev <;> simp [hh]
  · rw [if_neg hv]
    rcases hc : m.canTransitionTo s with e | b
    · simp
    · rcases b with _ | _
      · rcases hh : (m.handleError
            ("Invalid transition from " ++ m.currentState ++ " requested: " ++ s) :
            Except String (List (Event α))) with e | ev <;> simp [hh]
      · rcases ha : (runHandlers hb ((jsGet m.transitions ANY).getD []) args).2 with _ | e
        · rcases hs : (runHandlers hb ((jsGet m.transitions s).getD []) args).2 with _ | e
          · right
            refine ⟨by simp [ha, hs], ?_⟩
            cases hvb : m.isValid s
            · exact absurd hvb hv
            · rfl
          · left; simp [ha, hs]
        · left; simp [ha]

lemma FSM.on_ok_fields (m : FSM) (s : String) (h : Nat) (m2 : FSM)
    (hok : m.on s h = .ok m2) :
    m2.currentState = m.currentState ∧ m2.knownStates = m.knownStates ∧
    m2.allowedTransitions = m.allowedTransitions ∧
    m2.errorHandler = m.errorHandler := by
  unfold FSM.on at hok
  split at hok
  · cases hok
  · cases hok
    exact ⟨rfl, rfl, rfl, rfl⟩

lemma FSM.off_ok_fields (m : FSM) (s : String) (h : Nat) (m2 : FSM)
    (hok : m.off s h = .ok m2) :
    m2.currentState = m.currentState ∧ m2.knownStates = m.knownStates ∧
    m2.allowedTransitions = m.allowedTransitions ∧
    m2.errorHandler = m.errorHandler := by
  unfold FSM.off at hok
  split at hok
  · cases hok
  · cases hok
    exact ⟨rfl, rfl, rfl, rfl⟩

/-! Concrete instances (the publish workflow from the README and the test
suite), used to evaluate the theorems on closed inputs. -/

/-- The README publish-workflow transition table. -/
def publishTable : List (String × Option (List String)) :=
  [("draft", some ["inReview"]),
   ("inReview", some ["changesNeeded", "approved"]),
   ("changesNeeded", some ["inReview", "approved"]),
   ("approved", some ["draft", "scheduled", "published"]),
   ("scheduled", some ["draft", "published"]),
   ("published", none)]

/-- The README workflow machine, started in `draft`. -/
def publishWorkflow : FSM := FSM.make publishTable "draft"

/-- Handler behaviour where every handler returns normally. -/
def quietHb : Nat → Nat → Option String := fun _ _ => none

/-- Handler behaviour where handler `2` throws and the others return. -/
def boomHb : Nat → Nat → Option String :=
  fun i _ => if i = 2 then some "handler exploded" else none

/-- The workflow with a wildcard handler `1` and handlers `2`, `3` on
`inReview`. -/
def reviewWorkflow : FSM :=
  runOps quietHb publishWorkflow
    [Op.register ANY 1, Op.register "inReview" 2, Op.register "inReview" 3]

/-- The workflow with error handler `9` installed. -/
def errWorkflow : FSM := publishWorkflow.onError 9

/-- A sample call sequence exercising every operation, including a rejected
dispatch and a dispatch whose handler throws. -/
def sampleOps : List (Op Nat) :=
  [Op.register ANY 1, Op.register "inReview" 2, Op.setErrorHandler 9,
   Op.dispatch "inReview" 0, Op.dispatch "nopenopenope" 0,
   Op.unregister "inReview" 2, Op.dispatch "approved" 0]

/-! Claim theorems. -/

/-- C9: for every constructed engine, `isValid s` is true iff `s` is a key
of the transition table, and false for every other input. -/
theorem isValid_spec (tbl : List (String × Option (List String)))
    (init s : String) :
    (FSM.isValid (FSM.make tbl init) s = true ↔ s ∈ tbl.map Prod.fst) ∧
    (FSM.isValid (FSM.make tbl init) s = false ↔ s ∉ tbl.map Prod.fst) := by
  have h := FSM.isValid_iff_mem (FSM.make tbl init) s
  have hk : (FSM.make tbl init).knownStates = tbl.map Prod.fst := rfl
  rw [hk] at h
  refine ⟨h, ?_, ?_⟩
  · intro hf hmem
    rw [← h] at hmem
    rw [hf] at hmem
    cases hmem
  · intro hnm
    cases hb : FSM.isValid (FSM.make tbl init) s
    · rfl
    · exact absurd (h.mp hb) hnm

/-- C1 (amended): `canTransitionTo t` returns `true` iff `t` appears in the
outgoing list of `CurrentState` whenever that table entry is present and is
not the absence marker; when `CurrentState` is not a table key, or its
entry is the absence marker, the call throws a `TypeError` instead of
returning false. -/
theorem canTransitionTo_spec (m : FSM) (t : String) :
    (∀ L, jsGet m.allowedTransitions m.currentState = some (some L) →
       ((m.canTransitionTo t = .ok true ↔ t ∈ L) ∧
        (m.canTransitionTo t = .ok false ↔ t ∉ L))) ∧
    (jsGet m.allowedTransitions m.currentState = none →
       m.canTransitionTo t = .error undefinedIndexOfError) ∧
    (jsGet m.allowedTransitions m.currentState = some none →
       m.canTransitionTo t = .error nullIndexOfError) := by
  refine ⟨?_, ?_, ?_⟩
  · intro L hL
    constructor
    · simp [FSM.canTransitionTo, hL, jsIndexOf_nonneg]
    · simp [FSM.canTransitionTo, hL, jsIndexOf_nonneg]
  · intro h
    simp [FSM.canTransitionTo, h]
  · intro h
    simp [FSM.canTransitionTo, h]

theorem canTransitionTo_spec_witness :
    FSM.canTransitionTo publishWorkflow "inReview" = .ok true :=
  ((canTransitionTo_spec publishWorkflow "inReview").1 ["inReview"]
    (by decide)).1.mpr (by decide)

theorem canTransitionTo_null_throws_cex :
    FSM.canTransitionTo (FSM.make publishTable "published") "draft" ≠ .ok false ∧
    FSM.canTransitionTo (FSM.make publishTable "published") "draft" =
      .error nullIndexOfError := by
  decide

/-- C2 (counterexample to the claim as stated): constructing the workflow
with the unknown initial state `bogus` leaves `CurrentState` outside the
known-state set. -/
theorem invalid_initial_state_cex :
    (FSM.make publishTable "bogus").currentState ∉
      (FSM.make publishTable "bogus").knownStates := by
  decide

/-- C2 (amended): provided `CurrentState` is in the known-state set, every
`emit` call, successful, rejected or throwing, keeps it there, and the
known-state set itself never changes. -/
theorem emit_preserves_state_membership {α : Type} (m : FSM)
    (hb : Nat → α → Option String) (s : String) (args : α)
    (hm : m.currentState ∈ m.knownStates) :
    (m.emit hb s args).1.currentState ∈ (m.emit hb s args).1.knownStates ∧
    (m.emit hb s args).1.knownStates = m.knownStates := by
  rcases FSM.emit_fst m hb s args with h | ⟨h, hv⟩
  · rw [h]
    exact ⟨hm, rfl⟩
  · rw [h]
    refine ⟨?_, rfl⟩
    exact (FSM.isValid_iff_mem m s).mp hv

theorem emit_preserves_state_membership_witness :
    ((FSM.emit publishWorkflow quietHb "inReview" 0).1.currentState ∈
      (FSM.emit publishWorkflow quietHb "inReview" 0).1.knownStates) ∧
    (FSM.emit publishWorkflow quietHb "inReview" 0).1.knownStates =
      publishWorkflow.knownStates :=
  emit_preserves_state_membership publishWorkflow quietHb "inReview" 0 (by decide)

/-- C3: with an error handler installed, a dispatch to an unknown state
invokes the error path with exactly `Invalid state requested: s` and
returns false, and a dispatch to a known but unreachable state invokes it
with exactly `Invalid transition from cur requested: s` and returns false;
in both cases the machine is untouched and no transition handler runs (the
trace holds nothing but the one error-handler call). -/
theorem emit_rejection_with_handler {α : Type} (m : FSM)
    (hb : Nat → α → Option String) (s : String) (args : α) (eh : Nat)
    (hset : m.errorHandler = some eh) :
    (m.isValid s = false →
       m.emit hb s args =
         (m, [Event.errorCall eh ("Invalid state requested: " ++ s)],
          .ok false)) ∧
    (m.isValid s = true → m.canTransitionTo s = .ok false →
       m.emit hb s args =
         (m, [Event.errorCall eh
               ("Invalid transition from " ++ m.currentState ++ " requested: " ++ s)],
          .ok false)) := by
  constructor
  · intro hv
    simp [FSM.emit, if_pos hv, FSM.handleError, hset]
  · intro hv hcan
    have hv2 : ¬(m.isValid s = false) := by simp [hv]
    simp [FSM.emit, if_neg hv2, hcan, FSM.handleError, hset]

theorem emit_rejection_with_handler_witness :
    FSM.emit errWorkflow quietHb "nopenopenope" 0 =
      (errWorkflow, [Event.errorCall 9 "Invalid state requested: nopenopenope"],
       .ok false) :=
  (emit_rejection_with_handler errWorkflow quietHb "nopenopenope" 0 9 rfl).1
    (by decide)

/-- C4: the error path invokes the installed error handler with the exact
message and dispatch returns false without raising; with no error handler
installed it throws `No error handlers present: msg`, and that error
propagates out of `emit` to the dispatch caller on both rejection paths. -/
theorem errorPath_spec {α : Type} (m : FSM) (msg s : String)
    (hb : Nat → α → Option String) (args : α) :
    (∀ eh, m.errorHandler = some eh →
       (FSM.handleError m msg : Except String (List (Event α))) =
         .ok [Event.errorCall eh msg]) ∧
    (m.errorHandler = none →
       (FSM.handleError m msg : Except String (List (Event α))) =
         .error ("No error handlers present: " ++ msg)) ∧
    (∀ eh, m.errorHandler = some eh → m.isValid s = false →
       m.emit hb s args =
         (m, [Event.errorCall eh ("Invalid state requested: " ++ s)], .ok false)) ∧
    (m.errorHandler = none → m.isValid s = false →
       m.emit hb s args =
         (m, [],
          .error ("No error handlers present: " ++
            ("Invalid state requested: " ++ s)))) ∧
    (m.errorHandler = none → m.isValid s = true →
        m.canTransitionTo s = .ok false →
       m.emit hb s args =
         (m, [],
          .error ("No error handlers present: " ++
            ("Invalid transition from " ++ m.currentState ++ " requested: " ++ s)))) := by
  refine ⟨?_, ?_, ?_, ?_, ?_⟩
  · intro eh hset
    simp [FSM.handleError, hset]
  · intro hnone
    simp [FSM.handleError, hnone]
  · intro eh hset hv
    simp [FSM.emit, if_pos hv, FSM.handleError, hset]
  · intro hnone hv
    simp [FSM.emit, if_pos hv, FSM.handleError, hnone]
  · intro hnone hv hcan
    have hv2 : ¬(m.isValid s = false) := by simp [hv]
    simp [FSM.emit, if_neg hv2, hcan, FSM.handleError, hnone]

theorem errorPath_spec_witness :
    FSM.emit publishWorkflow quietHb "nopenopenope" 0 =
      (publishWorkflow, [],
       .error "No error handlers present: Invalid state requested: nopenopenope") :=
  (errorPath_spec publishWorkflow "x" "nopenopenope" quietHb 0).2.2.2.1
    rfl (by decide)

/-- C5: a dispatch to a valid, reachable state whose handlers all return
normally invokes every wildcard handler then every state handler, in
registration order and once per registration, with the dispatch arguments,
then sets `currentState` to the target and returns the engine. -/
theorem emit_success_spec {α : Type} (m : FSM)
    (hb : Nat → α → Option String) (s : String) (args : α) (LA LS : List Nat)
    (hA : (jsGet m.transitions ANY).getD [] = LA)
    (hS : (jsGet m.transitions s).getD [] = LS)
    (hvalid : m.isValid s = true)
    (hcan : m.canTransitionTo s = .ok true)
    (hok : ∀ x ∈ LA ++ LS, hb x args = none) :
    m.emit hb s args =
      ({ m with currentState := s },
       (LA ++ LS).map (fun i => Event.handlerCall i args),
       .ok true) := by
  have hv2 : ¬(m.isValid s = false) := by simp [hvalid]
  have hLA : ∀ x ∈ LA, hb x args = none :=
    fun x hx => hok x (List.mem_append_left _ hx)
  have hLS : ∀ x ∈ LS, hb x args = none :=
    fun x hx => hok x (List.mem_append_right _ hx)
  simp [FSM.emit, if_neg hv2, hcan, hA, hS,
    runHandlers_of_none hb LA args hLA, runHandlers_of_none hb LS args hLS]

theorem emit_success_spec_witness :
    FSM.emit reviewWorkflow quietHb "inReview" 0 =
      ({ reviewWorkflow with currentState := "inReview" },
       [Event.handlerCall 1 0, Event.handlerCall 2 0, Event.handlerCall 3 0],
       .ok true) :=
  emit_success_spec reviewWorkflow quietHb "inReview" 0 [1] [2, 3]
    (by decide) (by decide) (by decide) (by decide) (by decide)

/-- C6: when some handler throws during the handler phase of a successful
validation, the first throwing handler ends the dispatch: its error
propagates unmodified to the caller, the error handler is never consulted
(the trace holds handler calls only), the machine — in particular
`currentState` — is unchanged, and the handlers that ran before it are not
rolled back (their calls remain in the trace). -/
theorem emit_handler_throw_spec {α : Type} (m : FSM)
    (hb : Nat → α → Option String) (s : String) (args : α)
    (pre : List Nat) (h0 : Nat) (suf : List Nat) (e : String)
    (hvalid : m.isValid s = true)
    (hcan : m.canTransitionTo s = .ok true)
    (hsplit : (jsGet m.transitions ANY).getD [] ++ (jsGet m.transitions s).getD [] =
      pre ++ h0 :: suf)
    (hpre : ∀ x ∈ pre, hb x args = none)
    (hthrow : hb h0 args = some e) :
    m.emit hb s args =
      (m, pre.map (fun i => Event.handlerCall i args) ++ [Event.handlerCall h0 args],
       .error e) := by
  have hv2 : ¬(m.isValid s = false) := by simp [hvalid]
  rcases List.append_eq_append_iff.mp hsplit with ⟨a2, hp, hLS⟩ | ⟨c2, hLA, hcd⟩
  · have hLAnone : ∀ x ∈ (jsGet m.transitions ANY).getD [], hb x args = none := by
      intro x hx
      exact hpre x (by rw [hp]; exact List.mem_append_left _ hx)
    have ha2 : ∀ x ∈ a2, hb x args = none := by
      intro x hx
      exact hpre x (by rw [hp]; exact List.mem_append_right _ hx)
    simp [FSM.emit, if_neg hv2, hcan,
      runHandlers_of_none hb _ args hLAnone, hLS,
      runHandlers_of_throw hb a2 h0 suf args e ha2 hthrow, hp]
  · cases c2 with
    | nil =>
      rw [List.append_nil] at hLA
      rw [List.nil_append] at hcd
      have hLAnone : ∀ x ∈ (jsGet m.transitions ANY).getD [], hb x args = none := by
        rw [hLA]; exact hpre
      have hLS2 : runHandlers hb ((jsGet m.transitions s).getD []) args =
          ([Event.handlerCall h0 args], some e) := by
        rw [← hcd]
        simpa using runHandlers_of_throw hb [] h0 suf args e (by simp) hthrow
      simp [FSM.emit, if_neg hv2, hcan, hLA, hLS2,
        runHandlers_of_none hb pre args hpre]
    | cons c0 c3 =>
      have hc0 : c0 = h0 := (List.cons.injEq _ _ _ _ ▸ hcd.symm).1
      rw [hc0] at hLA
      have hLA2 : runHandlers hb ((jsGet m.transitions ANY).getD []) args =
          (pre.map (fun i => Event.handlerCall i args) ++ [Event.handlerCall h0 args],
           some e) := by
        rw [hLA]
        exact runHandlers_of_throw hb pre h0 c3 args e hpre hthrow
      simp [FSM.emit, if_neg hv2, hcan, hLA2]

theorem emit_handler_throw_spec_witness :
    FSM.emit reviewWorkflow boomHb "inReview" 0 =
      (reviewWorkflow, [Event.handlerCall 1 0, Event.handlerCall 2 0],
       .error "handler exploded") :=
  emit_handler_throw_spec reviewWorkflow boomHb "inReview" 0 [1] 2 [3]
    "handler exploded" (by decide) (by decide) (by decide) (by decide) (by decide)

/-! Lemmas about the defensive key-creation step shared by `on` and `off`. -/

/-- Abbreviation for the defensive `hasOwnProperty`-guarded registry used
inside `on` and `off`. -/
def ensureKey (o : List (String × List Nat)) (s : String) :
    List (String × List Nat) :=
  if jsHasOwnProperty o s then o else jsSet o s []

lemma jsGet_ensure_getD (o : List (String × List Nat)) (s : String) :
    (jsGet (ensureKey o s) s).getD [] = (jsGet o s).getD [] := by
  unfold ensureKey
  by_cases hp : jsHasOwnProperty o s
  · rw [if_pos hp]
  · rw [if_neg hp, jsGet_jsSet_self]
    unfold jsHasOwnProperty at hp
    cases hg : jsGet o s with
    | none => simp
    | some v => rw [hg] at hp; simp at hp

lemma jsGet_ensure_ne (o : List (String × List Nat)) (s k : String)
    (hk : k ≠ s) :
    jsGet (ensureKey o s) k = jsGet o k := by
  unfold ensureKey
  by_cases hp : jsHasOwnProperty o s
  · rw [if_pos hp]
  · rw [if_neg hp, jsGet_jsSet_ne _ _ _ _ hk]

/-- C7: `on s h` fails with the unknown-state error exactly when `s` is
neither the wildcard nor a known state; otherwise it appends `h` to the
handler sequence of `s`, leaves every other registry entry and every other
field alone, and returns the engine. -/
theorem on_spec (m : FSM) (s : String) (h : Nat) :
    (s ≠ ANY → m.isValid s = false →
       m.on s h = .error ("Unable to hook up handler to unknown state " ++ s ++ "!")) ∧
    ((s = ANY ∨ m.isValid s = true) →
       ∃ m2, m.on s h = .ok m2 ∧
         jsGet m2.transitions s = some ((jsGet m.transitions s).getD [] ++ [h]) ∧
         (∀ k, k ≠ s → jsGet m2.transitions k = jsGet m.transitions k) ∧
         m2.currentState = m.currentState ∧
         m2.knownStates = m.knownStates ∧
         m2.allowedTransitions = m.allowedTransitions ∧
         m2.errorHandler = m.errorHandler) := by
  constructor
  · intro h1 h2
    unfold FSM.on
    rw [if_pos ⟨h1, h2⟩]
  · intro hcond
    have hnc : ¬(s ≠ ANY ∧ m.isValid s = false) := by
      rcases hcond with he | hv
      · exact fun hc => hc.1 he
      · exact fun hc => by rw [hv] at hc; exact absurd hc.2 (by simp)
    refine ⟨{ m with transitions := jsSet (ensureKey m.transitions s) s ((jsGet (ensureKey m.transitions s) s).getD [] ++ [h]) }, ?_, ?_, ?_, rfl, rfl, rfl, rfl⟩
    · unfold FSM.on
      rw [if_neg hnc]
      rfl
    · rw [jsGet_jsSet_self, jsGet_ensure_getD]
    · intro k hk
      rw [jsGet_jsSet_ne _ _ _ _ hk, jsGet_ensure_ne _ _ _ hk]

theorem on_spec_witness :
    FSM.on publishWorkflow "nope" 1 =
      .error "Unable to hook up handler to unknown state nope!" :=
  (on_spec publishWorkflow "nope" 1).1 (by decide) (by decide)

/-- C8: `off s h` fails with the unknown-state error exactly when `s` is
neither the wildcard nor a known state; otherwise it removes every
occurrence of `h` from the handler sequence of `s` (keeping the remaining
handlers in order), is a no-op on that sequence when `h` is absent, leaves
every other registry entry and every other field alone, and returns the
engine. -/
theorem off_spec (m : FSM) (s : String) (h : Nat) :
    (s ≠ ANY → m.isValid s = false →
       m.off s h = .error ("Unable to remove handler from unknown state " ++ s ++ "!")) ∧
    ((s = ANY ∨ m.isValid s = true) →
       ∃ m2, m.off s h = .ok m2 ∧
         jsGet m2.transitions s =
           some (((jsGet m.transitions s).getD []).filter (fun x => x ≠ h)) ∧
         h ∉ ((jsGet m.transitions s).getD []).filter (fun x => x ≠ h) ∧
         (h ∉ (jsGet m.transitions s).getD [] →
            jsGet m2.transitions s = some ((jsGet m.transitions s).getD [])) ∧
         (∀ k, k ≠ s → jsGet m2.transitions k = jsGet m.transitions k) ∧
         m2.currentState = m.currentState ∧
         m2.knownStates = m.knownStates ∧
         m2.allowedTransitions = m.allowedTransitions ∧
         m2.errorHandler = m.errorHandler) := by
  constructor
  · intro h1 h2
    unfold FSM.off
    rw [if_pos ⟨h1, h2⟩]
  · intro hcond
    have hnc : ¬(s ≠ ANY ∧ m.isValid s = false) := by
      rcases hcond with he | hv
      · exact fun hc => hc.1 he
      · exact fun hc => by rw [hv] at hc; exact absurd hc.2 (by simp)
    refine ⟨{ m with transitions := jsSet (ensureKey m.transitions s) s (((jsGet (ensureKey m.transitions s) s).getD []).filter (fun x => x ≠ h)) }, ?_, ?_, ?_, ?_, ?_, rfl, rfl, rfl, rfl⟩
    · unfold FSM.off
      rw [if_neg hnc]
      rfl
    · rw [jsGet_jsSet_self, jsGet_ensure_getD]
    · intro hmem
      rcases List.mem_filter.mp hmem with ⟨_, hne⟩
      simp at hne
    · intro hnm
      rw [jsGet_jsSet_self, jsGet_ensure_getD]
      congr 1
      refine List.filter_eq_self.mpr ?_
      intro a ha
      simp only [decide_eq_true_eq]
      exact fun he => hnm (he ▸ ha)
    · intro k hk
      rw [jsGet_jsSet_ne _ _ _ _ hk, jsGet_ensure_ne _ _ _ hk]

theorem off_spec_witness :
    FSM.off publishWorkflow "nope" 1 =
      .error "Unable to remove handler from unknown state nope!" :=
  (off_spec publishWorkflow "nope" 1).1 (by decide) (by decide)

/-! The state-membership invariant across arbitrary call sequences. -/

lemma runOp_inv {α : Type} (hb : Nat → α → Option String) (m : FSM) (op : Op α)
    (hm : m.currentState ∈ m.knownStates) :
    (runOp hb m op).currentState ∈ (runOp hb m op).knownStates ∧
    (runOp hb m op).knownStates = m.knownStates := by
  cases op with
  | register s h =>
    simp only [runOp]
    cases hok : m.on s h with
    | ok m2 =>
      have hf := FSM.on_ok_fields m s h m2 hok
      simp [hf.1, hf.2.1, hm]
    | error e => simp [hm]
  | unregister s h =>
    simp only [runOp]
    cases hok : m.off s h with
    | ok m2 =>
      have hf := FSM.off_ok_fields m s h m2 hok
      simp [hf.1, hf.2.1, hm]
    | error e => simp [hm]
  | setErrorHandler h =>
    exact ⟨hm, rfl⟩
  | dispatch s args =>
    simp only [runOp]
    rcases FSM.emit_fst m hb s args with h1 | ⟨h1, hv⟩
    · rw [h1]
      exact ⟨hm, rfl⟩
    · rw [h1]
      exact ⟨(FSM.isValid_iff_mem m s).mp hv, rfl⟩

/-- C10: starting from any engine whose initial state is a table key, any
finite sequence of register, unregister, setErrorHandler and dispatch
calls — including rejected dispatches and dispatches whose handlers
throw — leaves `currentState` inside the known-state set. -/
theorem runOps_state_membership {α : Type}
    (tbl : List (String × Option (List String))) (init : String)
    (hb : Nat → α → Option String) (ops : List (Op α))
    (hinit : init ∈ tbl.map Prod.fst) :
    (runOps hb (FSM.make tbl init) ops).currentState ∈
      (FSM.make tbl init).knownStates := by
  have hbase : (FSM.make tbl init).currentState ∈ (FSM.make tbl init).knownStates :=
    hinit
  have main : ∀ (l : List (Op α)) (m : FSM), m.currentState ∈ m.knownStates →
      (runOps hb m l).currentState ∈ (runOps hb m l).knownStates ∧
      (runOps hb m l).knownStates = m.knownStates := by
    intro l
    induction l with
    | nil => exact fun m hm => ⟨hm, rfl⟩
    | cons op rest ih =>
      intro m hm
      have h1 := runOp_inv hb m op hm
      have h2 := ih (runOp hb m op) h1.1
      exact ⟨h2.1, h2.2.trans h1.2⟩
  have h := main ops (FSM.make tbl init) hbase
  rw [← h.2]
  exact h.1

theorem runOps_state_membership_witness :
    (runOps boomHb (FSM.make publishTable "draft") sampleOps).currentState ∈
      (FSM.make publishTable "draft").knownStates :=
  runOps_state_membership publishTable "draft" boomHb sampleOps (by decide)

end Evstate
